import Mathlib

/-!
Shallow embedding of the `isorter` Sublime Text plugin
(`isort_cmd.py`, `isort_lib/settings.py`, `isort_lib/utils.py`).

Python dictionaries over string keys are modelled as association lists,
Python values occurring in settings as the inductive `SVal`, and the
host editor's settings objects as partial maps `String → Option SVal`.
-/

namespace Isorter

/-- Modelled from the spec: the plugin name from `isort_lib/consts.py`
(not included under `src/`); the repository/plugin is named `isorter`.
Used as the flat-key prefix and the nested-settings key. -/
def NAME : String := "isorter"

/-- A Python value that can appear as a configuration setting
(`None`, a bool, a number, or a string). -/
inductive SVal where
  | none_
  | b (x : Bool)
  | num (q : Rat)
  | s (v : String)
deriving DecidableEq

/-- `_UNSET = "__UNSET_SETTINGS_KEY__"` (`settings.py` line 9), as a value:
the sentinel returned by `.get(key, _UNSET)` when the key is absent. -/
def UNSET_VAL : SVal := SVal.s "__UNSET_SETTINGS_KEY__"

/-- `IsortSettings.settings_attrs` / the keys of `default_settings`
(`settings.py` lines 17–40), in dictionary order. -/
def settings_keys : List String :=
  ["verbose", "timeout", "path", "log_level", "on_save", "encoding"]

/-- `IsortSettings.default_settings` (`settings.py` lines 33–40). -/
def default_settings : List (String × SVal) :=
  [("verbose", SVal.b false),
   ("timeout", SVal.num 1),
   ("path", SVal.none_),
   ("log_level", SVal.s "INFO"),
   ("on_save", SVal.b false),
   ("encoding", SVal.s "utf-8")]

/-- Dictionary lookup on an association list (Python `d[k]` / `k in d`). -/
def dget (m : List (String × SVal)) (k : String) : Option SVal :=
  match m with
  | [] => none
  | (k', v) :: rest => if k' = k then some v else dget rest k

/-- Python `k in d`. -/
def dcontains (m : List (String × SVal)) (k : String) : Bool :=
  (dget m k).isSome

/-- Python `d[k] = v`: replace the value at an existing key in place
(preserving insertion order), or append a new binding. -/
def dset (m : List (String × SVal)) (k : String) (v : SVal) :
    List (String × SVal) :=
  if dcontains m k then m.map (fun p => if p.1 = k then (k, v) else p)
  else m ++ [(k, v)]

/-- `IsortSettings.global_key` (`settings.py` lines 65–66):
`"_".join(("isort", key))`. -/
def global_key (key : String) : String := "isort" ++ "_" ++ key

/-- `IsortSettings.flat_key` (`settings.py` lines 68–69):
`".".join((NAME, key))`. -/
def flat_key (key : String) : String := NAME ++ "." ++ key

/-- `m.get(k, _UNSET)`: the stored value, or the `_UNSET` sentinel when
the key is absent (`settings.py` lines 107, 112, 117). -/
def getOr (m : String → Option SVal) (k : String) : SVal :=
  match m k with
  | some v => v
  | none => UNSET_VAL

/-- One iteration of the `for key in self.default_settings` loop of
`IsortSettings.update_settings` (`settings.py` lines 103–123): try the
flat dotted key on the view settings, then the nested mapping, then the
prefixed key in the global settings; the first value that is not the
`_UNSET` sentinel is expanded and stored. -/
def updateOne (expandF : SVal → SVal)
    (flat nested glob : String → Option SVal)
    (cur : List (String × SVal)) (key : String) : List (String × SVal) :=
  let v1 := getOr flat (flat_key key)
  if v1 ≠ UNSET_VAL then dset cur key (expandF v1)
  else
    let v2 := getOr nested key
    if v2 ≠ UNSET_VAL then dset cur key (expandF v2)
    else
      let v3 := getOr glob (global_key key)
      if v3 ≠ UNSET_VAL then dset cur key (expandF v3)
      else cur

/-- `IsortSettings.update_settings` (`settings.py` lines 91–127), the part
that rewrites `self.current_settings`; the placeholder expansion
`expand(value, self.view)` is the parameter `expandF`, and the three
configuration sources are the parameters `flat` (view settings, flat
dotted keys), `nested` (the mapping stored under `NAME` in the view
settings) and `glob` (the global persisted settings store). -/
def update_settings (expandF : SVal → SVal)
    (flat nested glob : String → Option SVal)
    (cur : List (String × SVal)) : List (String × SVal) :=
  settings_keys.foldl (updateOne expandF flat nested glob) cur

/-- The value a configuration source effectively provides for a key:
`none` when the key is absent or the stored value equals the `_UNSET`
sentinel (which the code cannot distinguish from absence). -/
def providedOf (o : Option SVal) : Option SVal :=
  match o with
  | some v => if v = UNSET_VAL then none else some v
  | none => none

/-- The source value `update_settings` resolves for a key, following the
flat → nested → global chain. -/
def resolveKey (flat nested glob : String → Option SVal) (key : String) :
    Option SVal :=
  (providedOf (flat (flat_key key))).orElse fun _ =>
    (providedOf (nested key)).orElse fun _ =>
      providedOf (glob (global_key key))

theorem getOr_eq_unset_iff (m : String → Option SVal) (k : String) :
    getOr m k = UNSET_VAL ↔ providedOf (m k) = none := by
  unfold getOr providedOf
  cases h : m k with
  | none => simp
  | some v =>
    by_cases hv : v = UNSET_VAL <;> simp [hv]

theorem updateOne_eq_resolve (expandF : SVal → SVal)
    (flat nested glob : String → Option SVal)
    (cur : List (String × SVal)) (key : String) :
    updateOne expandF flat nested glob cur key =
      match resolveKey flat nested glob key with
      | some v => dset cur key (expandF v)
      | none => cur := by
  unfold updateOne resolveKey
  by_cases h1 : getOr flat (flat_key key) = UNSET_VAL
  · have h1' := (getOr_eq_unset_iff flat (flat_key key)).mp h1
    by_cases h2 : getOr nested key = UNSET_VAL
    · have h2' := (getOr_eq_unset_iff nested key).mp h2
      by_cases h3 : getOr glob (global_key key) = UNSET_VAL
      · have h3' := (getOr_eq_unset_iff glob (global_key key)).mp h3
        simp [h1, h2, h3, h1', h2', h3', Option.orElse]
      · have h3' : providedOf (glob (global_key key)) =
            some (getOr glob (global_key key)) := by
          unfold getOr providedOf at *
          cases h : glob (global_key key) with
          | none => simp [h] at h3
          | some v => simp [h] at h3 ⊢; simp [h3]
        simp [h1, h2, h3, h1', h2', h3', Option.orElse]
    · have h2' : providedOf (nested key) = some (getOr nested key) := by
        unfold getOr providedOf at *
        cases h : nested key with
        | none => simp [h] at h2
        | some v => simp [h] at h2 ⊢; simp [h2]
      simp [h1, h2, h1', h2', Option.orElse]
  · have h1' : providedOf (flat (flat_key key)) =
        some (getOr flat (flat_key key)) := by
      unfold getOr providedOf at *
      cases h : flat (flat_key key) with
      | none => simp [h] at h1
      | some v => simp [h] at h1 ⊢; simp [h1]
    simp [h1, h1', Option.orElse]

/-! ### Python string primitives, modelled on character lists -/

/-- Python `str.startswith`. -/
def pyStartsWith (s pre : String) : Bool :=
  pre.toList.isPrefixOf s.toList

/-- Python `str.endswith`. -/
def pyEndsWith (s suf : String) : Bool :=
  suf.toList.isSuffixOf s.toList

/-- Whether a character is ASCII whitespace in Python's sense
(`\t`, `\n`, `\v`, `\f`, `\r`, space). -/
def pySpace (c : Char) : Bool :=
  c.toNat = 9 || c.toNat = 10 || c.toNat = 11 || c.toNat = 12 ||
    c.toNat = 13 || c.toNat = 32

/-- Python `str.strip()`: drop leading and trailing whitespace. -/
def pyStrip (s : String) : String :=
  String.mk (((s.toList.dropWhile pySpace).reverse.dropWhile pySpace).reverse)

/-- Python `str.split` with a one-character separator, keeping empty
parts (so the result is always non-empty). -/
def splitOnChar (c : Char) : List Char → List (List Char)
  | [] => [[]]
  | x :: rest =>
    let r := splitOnChar c rest
    if x = c then [] :: r
    else
      match r with
      | [] => [[x]]
      | h :: t => (x :: h) :: t

/-- Python `name.split(".")[-1]`: the last dot-separated component. -/
def lastComponent (name : String) : String :=
  String.mk (((splitOnChar '.' name.toList).getLast?).getD [])

/-- Whether a character is an ASCII digit. -/
def pyDigit (c : Char) : Bool :=
  decide (48 ≤ c.toNat) && decide (c.toNat ≤ 57)

/-- The natural number denoted by a non-empty list of digits. -/
def digitsOf (cs : List Char) : Option Nat :=
  if cs = [] then none
  else
    cs.foldl
      (fun acc c =>
        acc.bind fun n => if pyDigit c then some (n * 10 + (c.toNat - 48)) else none)
      (some 0)

/-- Python `int(s)` on a plain decimal string: an optional sign followed
by digits (surrounding whitespace and underscore separators, which
cannot occur in the directory names at hand, are not modelled). -/
def pyInt? (s : String) : Option Int :=
  match s.toList with
  | [] => none
  | c :: rest =>
    if c = '-' then (digitsOf rest).map (fun n => -(n : Int))
    else if c = '+' then (digitsOf rest).map (fun n => (n : Int))
    else (digitsOf (c :: rest)).map (fun n => (n : Int))

/-! ### `isort_cmd.py` -/

/-- Index of the character one past the last `/` in the string, or `0`
when there is no `/` (Python `p.rfind('/') + 1`). -/
def rfindSlashSucc (cs : List Char) : Nat :=
  match cs.reverse.findIdx? (fun c => c = '/') with
  | some j => cs.length - j
  | none => 0

/-- POSIX `os.path.dirname`: everything up to the last `/`, with trailing
slashes stripped unless the head consists only of slashes. -/
def dirname (p : String) : String :=
  let cs := p.toList
  let head := cs.take (rfindSlashSucc cs)
  let head :=
    if head ≠ [] ∧ head.any (fun c => c ≠ '/') then
      (head.reverse.dropWhile (fun c => c = '/')).reverse
    else head
  String.mk head

/-- `isort_file` (`isort_cmd.py` lines 25–41): the argument list passed to
`subprocess.Popen` and the working directory it is started in. -/
def isort_file (exe file : String) (check : Bool) (_verbose : Bool)
    (cwd : Option String) : List String × String :=
  let args := [exe, "--stdout"] ++ (if check then ["-c"] else []) ++
    ["--filename", file, "-"]
  let wd := match cwd with
    | none => dirname file
    | some c => c
  (args, wd)

/-- A subprocess, abstracted to what `kill_proc` observes: whether the
OS still knows the pid (`terminate` raises `ProcessLookupError` when it
does not) and whether the process exits within the 1.5 s grace period
after `terminate`. -/
structure Proc where
  knownPid : Bool
  exitsWithinGrace : Bool
deriving DecidableEq

/-- How `kill_proc` (`utils.py` lines 55–63) disposed of the process. -/
inductive KillOutcome where
  | lookupError
  | exitedAfterTerminate
  | forceKilled
deriving DecidableEq

/-- `kill_proc` (`utils.py` lines 55–63): `terminate`, wait up to 1.5 s,
`kill` if the wait times out; a `ProcessLookupError` means the process
was already gone. -/
def kill_proc (p : Proc) : KillOutcome :=
  if p.knownPid = false then KillOutcome.lookupError
  else if p.exitsWithinGrace then KillOutcome.exitedAfterTerminate
  else KillOutcome.forceKilled

/-- After `kill_proc`, the process is no longer running in every case
(already gone, exited after `terminate`, or force-killed). -/
def stopped : KillOutcome → Bool
  | KillOutcome.lookupError => true
  | KillOutcome.exitedAfterTerminate => true
  | KillOutcome.forceKilled => true

/-- Outcome of `self.proc.communicate(input=cts, timeout=timeout)`
(`isort_cmd.py` line 149): either `subprocess.TimeoutExpired`, or
completion with the captured stdout, stderr and exit code. -/
inductive CommResult where
  | timeout
  | done (stdout stderr : String) (returncode : Int)

/-- Everything `IsortPythonCommand.do_isort` does that is observable:
the final buffer content, the status-bar message, the `[msg]` log record
(message and level), the stderr text printed to the console, the warning
logged on a non-zero exit, and whether `kill_proc` was invoked. -/
structure Outcome where
  buffer : String
  status : String
  logMsg : String
  logLevel : Nat
  printedStderr : Option String
  warnMsg : Option String
  killedProc : Bool
deriving DecidableEq

/-- `IsortPythonCommand.do_isort` (`isort_cmd.py` lines 138–172), given
the buffer content `cts`, the `check` flag, and the result of
`communicate`. On timeout: stdout and stderr are `None`, the process is
killed, status `isort(timeout)`, log `[Cancelled]` at INFO (20). On
completion: log `[Finished]` at DEBUG (10); exit code 0 gives status
`isort(sorted)`, a non-zero exit prints the stripped stderr, logs a
warning and shows `isort(err, <code>)`; the buffer is replaced by stdout
exactly when stdout is not `None`, differs from `cts`, and `check` is
false. -/
def do_isort (cts : String) (check : Bool) (res : CommResult) : Outcome :=
  match res with
  | CommResult.timeout =>
    { buffer := cts
      status := "isort(timeout)"
      logMsg := "Cancelled"
      logLevel := 20
      printedStderr := none
      warnMsg := none
      killedProc := true }
  | CommResult.done out err rc =>
    { buffer := if out ≠ cts ∧ check = false then out else cts
      status :=
        if rc = 0 then "isort(sorted)"
        else "isort(err, " ++ toString rc ++ ")"
      logMsg := "Finished"
      logLevel := 10
      printedStderr := if rc = 0 then none else some (pyStrip err)
      warnMsg :=
        if rc = 0 then none
        else some ("isort exited with code " ++ toString rc)
      killedProc := false }

/-! ### Logging: `IsortSettings.set_log_level` and `configure_logger` -/

/-- The level names accepted by `logging.Logger.setLevel`
(CPython `logging._nameToLevel`). -/
def nameToLevel (s : String) : Option Int :=
  if s = "CRITICAL" then some 50
  else if s = "FATAL" then some 50
  else if s = "ERROR" then some 40
  else if s = "WARN" then some 30
  else if s = "WARNING" then some 30
  else if s = "INFO" then some 20
  else if s = "DEBUG" then some 10
  else if s = "NOTSET" then some 0
  else none

/-- An exception raised by `logging._checkLevel`. -/
inductive PyError where
  | valueError (msg : String)
  | typeError
deriving DecidableEq

/-- CPython `logging._checkLevel`, applied to a settings value: an int
(bools are ints, `True` = 1) is taken as-is, a string is looked up in
the level-name table (`ValueError` when unknown), anything else raises
`TypeError`. A non-integer number is not an int, hence `TypeError`. -/
def checkLevel : SVal → Except PyError Int
  | SVal.b x => Except.ok (if x then 1 else 0)
  | SVal.num q =>
    if q.den = 1 then Except.ok q.num else Except.error PyError.typeError
  | SVal.s v =>
    match nameToLevel v with
    | some n => Except.ok n
    | none =>
      Except.error (PyError.valueError ("Unknown level: '" ++ v ++ "'"))
  | SVal.none_ => Except.error PyError.typeError

/-- `IsortSettings.set_log_level` (`settings.py` lines 129–137), given the
resolved `log_level` value and the logger's current level. `None` is
skipped. A `ValueError` from `setLevel` is caught: the error is logged,
the level is set to WARNING (30) and a fallback message is logged. Any
other exception (e.g. `TypeError`) propagates. Returns the new logger
level and the list of messages logged via `logger.error`. -/
def set_log_level (level : SVal) (loggerLevel : Int) :
    Except PyError (Int × List String) :=
  match level with
  | SVal.none_ => Except.ok (loggerLevel, [])
  | v =>
    match checkLevel v with
    | Except.ok n => Except.ok (n, [])
    | Except.error (PyError.valueError m) =>
      Except.ok (30, [m, "Falling back to level=WARNING"])
    | Except.error PyError.typeError => Except.error PyError.typeError

/-- A `logging.Handler`, abstracted to its identity and its formatter
(the formatter modelled by its format string). -/
structure Handler where
  hid : Nat
  fmt : Option String
deriving DecidableEq

/-- A `logging.Logger`, abstracted to level, `propagate` and handlers. -/
structure LoggerState where
  level : Int
  propagate : Bool
  handlers : List Handler
deriving DecidableEq

/-- The format string built in `configure_logger` (`utils.py` line 98),
after `str.format` substitutes `NAME` and turns `\x7b\x7b` into `\x7b`. -/
def logFormat : String :=
  "[\x7basctime\x7d] [\x7blevelname:7\x7d] " ++ NAME ++
    ":\x7bfilename\x7d \x7bmessage\x7d"

/-- `configure_logger` (`utils.py` lines 95–111): set the level to INFO,
disable propagation, add a fresh stream handler when there are none,
drop all but the first handler when there is more than one, and set the
first handler's formatter. `freshId` identifies the handler object a
call would create. -/
def configure_logger (freshId : Nat) (log : LoggerState) : LoggerState :=
  let log := { log with level := 20, propagate := false }
  let log :=
    if log.handlers.isEmpty then
      { log with handlers := [{ hid := freshId, fmt := some logFormat }] }
    else log
  let log :=
    if log.handlers.length > 1 then
      { log with handlers := log.handlers.take 1 }
    else log
  match log.handlers with
  | [] => log
  | hd :: tl => { log with handlers := { hd with fmt := some logFormat } :: tl }

/-! ### `find_package` and `patch_path` (`utils.py` lines 120–171) -/

/-- A filesystem, abstracted to what the two functions observe:
`os.path.isdir` and `os.listdir`. -/
structure FS where
  isDir : String → Bool
  listdir : String → List String

/-- POSIX `os.path.join` for one extra component. -/
def pjoin (a b : String) : String :=
  if pyStartsWith b "/" then b
  else if a = "" ∨ pyEndsWith a "/" then a ++ b
  else a ++ "/" ++ b

/-- Python `"isort" in path`: substring containment. -/
def strContains (s sub : String) : Bool :=
  decide (sub.toList <:+: s.toList)

/-- The version number `find_package` parses from one directory entry:
for a name starting with `python3`, `int(name.split(".")[-1])`, skipped
on `ValueError`. -/
def parseVersion (name : String) : Option Int :=
  if pyStartsWith name "python3" then pyInt? (lastComponent name)
  else none

/-- The versions collected from the `lib` directory's entries. -/
def libVersions (fs : FS) (root : String) : List Int :=
  (fs.listdir (pjoin root "lib")).filterMap parseVersion

/-- `find_package` (`utils.py` lines 120–143): look inside `root/lib`,
collect the numeric suffixes of the `python3.*` entries, take the
maximum `ver`, and return `root/lib/python3.<ver>/site-packages/<pkg>`
when that directory exists. -/
def find_package (fs : FS) (root : String) (pkg_name : String) :
    Option String :=
  let lib := pjoin root "lib"
  if fs.isDir lib = false then none
  else
    match libVersions fs root with
    | [] => none
    | v :: vs =>
      let ver := vs.foldl max v
      let version_path := pjoin lib ("python3." ++ toString ver)
      if fs.isDir version_path = false then none
      else
        let pkg_path := pjoin (pjoin version_path "site-packages") pkg_name
        if fs.isDir pkg_path then some pkg_path else none

/-- Python `list.insert(-1, x)`: insert `x` just before the last element
(at the front when the list is empty). -/
def insertBeforeLast (l : List String) (x : String) : List String :=
  let i := if l.length = 0 then 0 else l.length - 1
  l.take i ++ [x] ++ l.drop i

/-- The `for root in roots` loop of `patch_path` (`utils.py` lines
164–170): the first package path found under a non-`None` root that is
a directory. -/
def firstPkg (fs : FS) : List (Option String) → Option String
  | [] => none
  | none :: rest => firstPkg fs rest
  | some root :: rest =>
    if fs.isDir root then
      match find_package fs root "isort" with
      | some p => some p
      | none => firstPkg fs rest
    else firstPkg fs rest

/-- The candidate roots `patch_path` builds from the environment:
`$VIRTUAL_ENV`, `$PYENV_VIRTUAL_ENV`, and the pipx venv
(`$PIPX_HOME/venvs/isort`, with `PIPX_HOME` defaulting to
`$HOME/.local/pipx`) when that directory exists. -/
def patchRoots (fs : FS) (env : String → Option String) :
    List (Option String) :=
  let roots := [env "VIRTUAL_ENV", env "PYENV_VIRTUAL_ENV"]
  let pipx_home :=
    match env "PIPX_HOME" with
    | some h => some h
    | none =>
      match env "HOME" with
      | some h => some (pjoin (pjoin h ".local") "pipx")
      | none => none
  match pipx_home with
  | some ph =>
    let pipx_isort := pjoin (pjoin ph "venvs") "isort"
    if fs.isDir pipx_isort then roots ++ [some pipx_isort] else roots
  | none => roots

/-- `patch_path` (`utils.py` lines 146–171): when some `sys.path` entry
already contains `"isort"`, return `True` without touching the path;
otherwise find an installed isort package under the candidate roots and,
when found, `sys.path.insert(-1, path)` and return `True`; otherwise
return `False`. Returns the flag and the new `sys.path`. -/
def patch_path (fs : FS) (env : String → Option String)
    (sysPath : List String) : Bool × List String :=
  if sysPath.any (fun p => strContains p "isort") then (true, sysPath)
  else
    match firstPkg fs (patchRoots fs env) with
    | some p => (true, insertBeforeLast sysPath p)
    | none => (false, sysPath)

/-! ## Claim theorems -/

/-- C3: on a run in which the formatter does not produce output within
the configured timeout (`communicate` raises `TimeoutExpired`), the
process is terminated (`kill_proc` is invoked and the process always
ends up stopped), the condition is treated as cancelled rather than an
error (status `isort(timeout)`, log record `[Cancelled]` at the
informational level 20), and the buffer is never modified. -/
theorem timeout_cancels_and_preserves_buffer :
    ∀ (cts : String) (check : Bool),
      (do_isort cts check CommResult.timeout).buffer = cts ∧
      (do_isort cts check CommResult.timeout).status = "isort(timeout)" ∧
      (do_isort cts check CommResult.timeout).logMsg = "Cancelled" ∧
      (do_isort cts check CommResult.timeout).logLevel = 20 ∧
      (do_isort cts check CommResult.timeout).killedProc = true ∧
      ∀ p : Proc, stopped (kill_proc p) = true := by
  intro cts check
  refine ⟨rfl, rfl, rfl, rfl, rfl, ?_⟩
  intro p
  unfold kill_proc stopped
  by_cases h : p.knownPid = false
  · simp [h]
  · by_cases hg : p.exitsWithinGrace <;> simp [h, hg]

/-- C4: in check-mode the buffer is never modified, whatever the
formatter run produced (timeout, success, differing output, failure). -/
theorem check_mode_preserves_buffer :
    ∀ (cts : String) (res : CommResult),
      (do_isort cts true res).buffer = cts := by
  intro cts res
  cases res with
  | timeout => rfl
  | done out err rc => simp [do_isort]

/-- C5: when the formatter's returned output text equals the buffer's
original text, the buffer is never modified, in check-mode or not. -/
theorem identical_output_preserves_buffer :
    ∀ (cts err : String) (check : Bool) (rc : Int),
      (do_isort cts check (CommResult.done cts err rc)).buffer = cts := by
  intro cts err check rc
  simp [do_isort]

/-- C8: the formatter is spawned with exactly the argument list
`[exe, "--stdout"] + (["-c"] when check-mode) + ["--filename", file, "-"]`,
and its working directory is the file's containing directory when no
explicit directory is supplied, otherwise the supplied directory. -/
theorem isort_file_args_and_cwd :
    ∀ (exe file : String) (check verbose : Bool) (cwd : Option String),
      (isort_file exe file check verbose cwd).1 =
        (if check then [exe, "--stdout", "-c", "--filename", file, "-"]
         else [exe, "--stdout", "--filename", file, "-"]) ∧
      (isort_file exe file check verbose cwd).2 =
        (match cwd with
         | none => dirname file
         | some c => c) := by
  intro exe file check verbose cwd
  constructor
  · cases check <;> simp [isort_file]
  · cases cwd <;> simp [isort_file]

/-- C10: after any call to `configure_logger` the logger has exactly one
handler, regardless of how many handlers it had before, and a second
call leaves the logger state unchanged (idempotence). -/
theorem configure_logger_one_handler_and_idem :
    ∀ (freshId freshId2 : Nat) (log : LoggerState),
      (configure_logger freshId log).handlers.length = 1 ∧
      configure_logger freshId2 (configure_logger freshId log) =
        configure_logger freshId log := by
  intro f1 f2 log
  obtain ⟨lv, pr, hs⟩ := log
  cases hs with
  | nil => constructor <;> simp [configure_logger]
  | cons hd tl =>
    cases tl with
    | nil =>
      obtain ⟨hid, fmt⟩ := hd
      constructor <;> simp [configure_logger]
    | cons hd2 tl2 =>
      obtain ⟨hid, fmt⟩ := hd
      constructor <;> simp [configure_logger]

/-- C1, counterexample: a run that completes without a timeout and exits
with code 2 producing empty stdout. The buffer ("import b\n") is
replaced by the empty stdout — the claim's "the buffer content is not
altered" is false — and the status bar shows the exit code, not the
stderr content. -/
theorem nonzero_exit_counterexample :
    (do_isort "import b\n" false (CommResult.done "" "err: bad" 2)).buffer
        ≠ "import b\n" ∧
    (do_isort "import b\n" false (CommResult.done "" "err: bad" 2)).status
        = "isort(err, 2)" := by
  constructor
  · decide
  · decide

/-- C1, amended: on a run that completes without a timeout and exits
non-zero, the stripped stderr is printed to the console, a warning
naming the exit code is logged, the status bar shows an error status
naming the exit code, and the buffer is replaced by the formatter's
stdout exactly when that stdout differs from the original text and the
run is not in check-mode — otherwise it is left unchanged. -/
theorem nonzero_exit_behavior (cts out err : String) (check : Bool)
    (rc : Int) (h : rc ≠ 0) :
    (do_isort cts check (CommResult.done out err rc)).status =
      "isort(err, " ++ toString rc ++ ")" ∧
    (do_isort cts check (CommResult.done out err rc)).printedStderr =
      some (pyStrip err) ∧
    (do_isort cts check (CommResult.done out err rc)).warnMsg =
      some ("isort exited with code " ++ toString rc) ∧
    (do_isort cts check (CommResult.done out err rc)).buffer =
      (if out ≠ cts ∧ check = false then out else cts) := by
  refine ⟨?_, ?_, ?_, rfl⟩ <;> simp [do_isort, h]

/-- C1, witness for the amended theorem at a concrete input. -/
theorem nonzero_exit_behavior_witness :
    (1 : Int) ≠ 0 ∧
    (do_isort "a" false (CommResult.done "b" "boom" 1)).buffer = "b" := by
  refine ⟨by decide, ?_⟩
  have h := (nonzero_exit_behavior "a" "b" "boom" false 1 (by decide)).2.2.2
  rw [h]
  decide

/-- C6, counterexample: the configured log-level value "FATAL" is not
one of the five recognized level names the claim lists, yet `setLevel`
accepts it: the effective level becomes 50 (CRITICAL), not the WARNING
fallback 30, and nothing is logged as an error. -/
theorem fatal_level_counterexample :
    set_log_level (SVal.s "FATAL") 20 = Except.ok (50, []) ∧
    "FATAL" ∉ ["DEBUG", "INFO", "WARNING", "ERROR", "CRITICAL"] ∧
    (50 : Int) ≠ 30 := by
  refine ⟨rfl, by decide, by decide⟩

/-- C6, amended: for every configured string log-level value that is not
one of the level names the logging library accepts (DEBUG, INFO, WARN,
WARNING, ERROR, CRITICAL, FATAL, NOTSET), setting the level does not
fail the command: the rejection is logged as an error and the effective
logger level falls back to WARNING (30). -/
theorem unknown_level_falls_back (s : String) (lv : Int)
    (h : nameToLevel s = none) :
    set_log_level (SVal.s s) lv =
      Except.ok (30, ["Unknown level: '" ++ s ++ "'",
        "Falling back to level=WARNING"]) := by
  simp [set_log_level, checkLevel, h]

/-- C6, witness for the amended theorem at the spec's own example,
the unknown level "TRACE". -/
theorem unknown_level_falls_back_witness :
    nameToLevel "TRACE" = none ∧
    set_log_level (SVal.s "TRACE") 20 =
      Except.ok (30, ["Unknown level: '" ++ "TRACE" ++ "'",
        "Falling back to level=WARNING"]) :=
  ⟨by decide, unknown_level_falls_back "TRACE" 20 (by decide)⟩

/-! ## Dictionary lemmas for the settings snapshot -/

theorem dget_nil (k : String) : dget [] k = none := rfl

theorem dget_cons (a : String) (w : SVal) (tl : List (String × SVal))
    (k : String) :
    dget ((a, w) :: tl) k = if a = k then some w else dget tl k := rfl

theorem dget_map_set (m : List (String × SVal)) (k : String) (v : SVal)
    (h : (dget m k).isSome) :
    dget (m.map (fun p => if p.1 = k then (k, v) else p)) k = some v := by
  induction m with
  | nil => simp [dget_nil] at h
  | cons hd tl ih =>
    obtain ⟨a, w⟩ := hd
    rw [List.map_cons]
    by_cases ha : a = k
    · subst ha
      simp [dget_cons]
    · have hh : (if (a, w).1 = k then (k, v) else (a, w)) = (a, w) := by
        simp [ha]
      rw [hh, dget_cons, if_neg ha]
      rw [dget_cons, if_neg ha] at h
      exact ih h

theorem dget_append_single (m : List (String × SVal)) (k : String) (v : SVal)
    (h : dget m k = none) :
    dget (m ++ [(k, v)]) k = some v := by
  induction m with
  | nil => simp [dget_cons, dget_nil]
  | cons hd tl ih =>
    obtain ⟨a, w⟩ := hd
    by_cases ha : a = k
    · rw [dget_cons, if_pos ha] at h
      cases h
    · rw [dget_cons, if_neg ha] at h
      rw [List.cons_append, dget_cons, if_neg ha]
      exact ih h

theorem dget_dset_self (m : List (String × SVal)) (k : String) (v : SVal) :
    dget (dset m k v) k = some v := by
  by_cases h : dcontains m k = true
  · rw [dset, if_pos h]
    exact dget_map_set m k v (by simpa [dcontains] using h)
  · rw [dset, if_neg h]
    refine dget_append_single m k v ?_
    cases hh : dget m k with
    | none => rfl
    | some w => exact absurd (by simp [dcontains, hh]) h

theorem dget_map_set_ne (m : List (String × SVal)) (k : String) (v : SVal)
    (k' : String) (h : k ≠ k') :
    dget (m.map (fun p => if p.1 = k then (k, v) else p)) k' = dget m k' := by
  induction m with
  | nil => rfl
  | cons hd tl ih =>
    obtain ⟨a, w⟩ := hd
    rw [List.map_cons]
    by_cases ha : a = k
    · subst ha
      have hh : (if (a, w).1 = a then (a, v) else (a, w)) = (a, v) := by simp
      rw [hh, dget_cons, dget_cons, if_neg h, if_neg h]
      exact ih
    · have hh : (if (a, w).1 = k then (k, v) else (a, w)) = (a, w) := by
        simp [ha]
      rw [hh, dget_cons, dget_cons]
      by_cases hak : a = k' <;> simp [hak, ih]

theorem dget_append_ne (m : List (String × SVal)) (k : String) (v : SVal)
    (k' : String) (h : k ≠ k') :
    dget (m ++ [(k, v)]) k' = dget m k' := by
  induction m with
  | nil => simp [dget_cons, dget_nil, h]
  | cons hd tl ih =>
    obtain ⟨a, w⟩ := hd
    rw [List.cons_append, dget_cons, dget_cons]
    by_cases hak : a = k' <;> simp [hak, ih]

theorem dget_dset_ne (m : List (String × SVal)) (k : String) (v : SVal)
    (k' : String) (h : k ≠ k') :
    dget (dset m k v) k' = dget m k' := by
  by_cases hc : dcontains m k = true
  · rw [dset, if_pos hc]
    exact dget_map_set_ne m k v k' h
  · rw [dset, if_neg hc]
    exact dget_append_ne m k v k' h

theorem keys_dset (m : List (String × SVal)) (k : String) (v : SVal)
    (h : dcontains m k = true) :
    (dset m k v).map Prod.fst = m.map Prod.fst := by
  rw [dset, if_pos h, List.map_map]
  refine List.map_congr_left ?_
  intro p _
  by_cases hp : p.1 = k <;> simp [Function.comp, hp]

theorem dcontains_iff_mem (m : List (String × SVal)) (k : String) :
    dcontains m k = true ↔ k ∈ m.map Prod.fst := by
  induction m with
  | nil => simp [dcontains, dget_nil]
  | cons hd tl ih =>
    obtain ⟨a, w⟩ := hd
    by_cases ha : a = k
    · subst ha
      simp [dcontains, dget_cons]
    · rw [show dcontains ((a, w) :: tl) k = dcontains tl k by
        simp [dcontains, dget_cons, ha]]
      simp only [List.map_cons, List.mem_cons]
      constructor
      · intro hh
        exact Or.inr (ih.mp hh)
      · intro hh
        rcases hh with hh | hh
        · exact absurd hh.symm ha
        · exact ih.mpr hh

theorem dcontains_eq_of_keys_eq (m m' : List (String × SVal)) (k : String)
    (h : m.map Prod.fst = m'.map Prod.fst) :
    dcontains m k = dcontains m' k := by
  rw [Bool.eq_iff_iff, dcontains_iff_mem, dcontains_iff_mem, h]

theorem dget_updateOne_self (e : SVal → SVal)
    (f n g : String → Option SVal) (cur : List (String × SVal))
    (key : String) :
    dget (updateOne e f n g cur key) key =
      match resolveKey f n g key with
      | some v => some (e v)
      | none => dget cur key := by
  rw [updateOne_eq_resolve]
  cases hr : resolveKey f n g key with
  | none => rfl
  | some v => exact dget_dset_self cur key (e v)

theorem dget_updateOne_ne (e : SVal → SVal)
    (f n g : String → Option SVal) (cur : List (String × SVal))
    (key k' : String) (h : key ≠ k') :
    dget (updateOne e f n g cur key) k' = dget cur k' := by
  rw [updateOne_eq_resolve]
  cases hr : resolveKey f n g key with
  | none => rfl
  | some v => exact dget_dset_ne cur key (e v) k' h

theorem keys_updateOne (e : SVal → SVal)
    (f n g : String → Option SVal) (cur : List (String × SVal))
    (key : String) (h : dcontains cur key = true) :
    (updateOne e f n g cur key).map Prod.fst = cur.map Prod.fst := by
  rw [updateOne_eq_resolve]
  cases hr : resolveKey f n g key with
  | none => rfl
  | some v => exact keys_dset cur key (e v) h

theorem dget_foldl_not_mem (e : SVal → SVal)
    (f n g : String → Option SVal) (keys : List String)
    (cur : List (String × SVal)) (k : String) (hk : k ∉ keys) :
    dget (keys.foldl (updateOne e f n g) cur) k = dget cur k := by
  induction keys generalizing cur with
  | nil => rfl
  | cons a rest ih =>
    simp only [List.foldl_cons]
    rw [ih (updateOne e f n g cur a) (fun hm => hk (List.mem_cons_of_mem a hm))]
    exact dget_updateOne_ne e f n g cur a k
      (fun he => hk (he ▸ List.mem_cons_self a rest))

theorem dget_foldl_mem_some (e : SVal → SVal)
    (f n g : String → Option SVal) (keys : List String)
    (cur : List (String × SVal)) (k : String) (v : SVal)
    (hk : k ∈ keys) (hnd : keys.Nodup)
    (hr : resolveKey f n g k = some v) :
    dget (keys.foldl (updateOne e f n g) cur) k = some (e v) := by
  induction keys generalizing cur with
  | nil => cases hk
  | cons a rest ih =>
    simp only [List.foldl_cons]
    by_cases hak : a = k
    · subst hak
      have hnm : a ∉ rest := (List.nodup_cons.mp hnd).1
      rw [dget_foldl_not_mem e f n g rest _ a hnm, dget_updateOne_self, hr]
    · have hkrest : k ∈ rest := by
        rcases List.mem_cons.mp hk with hh | hh
        · exact absurd hh.symm hak
        · exact hh
      exact ih (updateOne e f n g cur a) hkrest (List.nodup_cons.mp hnd).2

theorem dget_foldl_mem_none (e : SVal → SVal)
    (f n g : String → Option SVal) (keys : List String)
    (cur : List (String × SVal)) (k : String)
    (hk : k ∈ keys) (hnd : keys.Nodup)
    (hr : resolveKey f n g k = none) :
    dget (keys.foldl (updateOne e f n g) cur) k = dget cur k := by
  induction keys generalizing cur with
  | nil => rfl
  | cons a rest ih =>
    simp only [List.foldl_cons]
    by_cases hak : a = k
    · subst hak
      have hnm : a ∉ rest := (List.nodup_cons.mp hnd).1
      rw [dget_foldl_not_mem e f n g rest _ a hnm, dget_updateOne_self, hr]
    · by_cases hkrest : k ∈ rest
      · rw [ih (updateOne e f n g cur a) hkrest (List.nodup_cons.mp hnd).2]
        exact dget_updateOne_ne e f n g cur a k hak
      · rw [dget_foldl_not_mem e f n g rest _ k hkrest]
        exact dget_updateOne_ne e f n g cur a k hak

theorem keys_foldl (e : SVal → SVal)
    (f n g : String → Option SVal) (keys : List String)
    (cur : List (String × SVal))
    (h : ∀ k ∈ keys, dcontains cur k = true) :
    (keys.foldl (updateOne e f n g) cur).map Prod.fst = cur.map Prod.fst := by
  induction keys generalizing cur with
  | nil => rfl
  | cons a rest ih =>
    simp only [List.foldl_cons]
    have h1 : (updateOne e f n g cur a).map Prod.fst = cur.map Prod.fst :=
      keys_updateOne e f n g cur a (h a (List.mem_cons_self a rest))
    have h2 : ∀ k ∈ rest, dcontains (updateOne e f n g cur a) k = true := by
      intro k hkr
      rw [dcontains_eq_of_keys_eq _ cur k h1]
      exact h k (List.mem_cons_of_mem a hkr)
    rw [ih (updateOne e f n g cur a) h2, h1]

/-- C2, amended: for every option and every combination of configuration
sources, the resolved snapshot value is taken from the flat dotted key
on the buffer's local settings if it provides one, otherwise from the
nested mapping keyed by plugin name, otherwise from the prefixed key in
the global store — where "provides one" means a stored value other than
the reserved sentinel string `__UNSET_SETTINGS_KEY__`, which the code
cannot distinguish from absence. -/
theorem settings_precedence (e : SVal → SVal)
    (flat nested glob : String → Option SVal)
    (cur : List (String × SVal)) (key : String)
    (hk : key ∈ settings_keys) :
    (∀ v, providedOf (flat (flat_key key)) = some v →
      dget (update_settings e flat nested glob cur) key = some (e v)) ∧
    (providedOf (flat (flat_key key)) = none →
      ∀ v, providedOf (nested key) = some v →
        dget (update_settings e flat nested glob cur) key = some (e v)) ∧
    (providedOf (flat (flat_key key)) = none →
      providedOf (nested key) = none →
        ∀ v, providedOf (glob (global_key key)) = some v →
          dget (update_settings e flat nested glob cur) key = some (e v)) := by
  have hnd : settings_keys.Nodup := by decide
  refine ⟨?_, ?_, ?_⟩
  · intro v hv
    refine dget_foldl_mem_some e flat nested glob settings_keys cur key v hk hnd ?_
    simp [resolveKey, hv, Option.orElse]
  · intro h1 v hv
    refine dget_foldl_mem_some e flat nested glob settings_keys cur key v hk hnd ?_
    simp [resolveKey, h1, hv, Option.orElse]
  · intro h1 h2 v hv
    refine dget_foldl_mem_some e flat nested glob settings_keys cur key v hk hnd ?_
    simp [resolveKey, h1, h2, hv, Option.orElse]

/-- C2, witness for the amended theorem: a flat-key value for `path`
wins and lands in the snapshot. -/
theorem settings_precedence_witness :
    "path" ∈ settings_keys ∧
    dget (update_settings id
        (fun k => if k = flat_key "path" then some (SVal.s "/flat") else none)
        (fun _ => none) (fun _ => none) default_settings) "path" =
      some (id (SVal.s "/flat")) := by
  refine ⟨by decide, ?_⟩
  exact (settings_precedence id
      (fun k => if k = flat_key "path" then some (SVal.s "/flat") else none)
      (fun _ => none) (fun _ => none) default_settings "path"
      (by decide)).1 (SVal.s "/flat") (by decide)

/-- C2, counterexample to the claim as stated: the flat source provides
a value for `path` — the reserved sentinel string — yet the resolved
snapshot value is taken from the nested source, so the flat-key source
does not always win over the nested source. -/
theorem settings_precedence_counterexample :
    (fun k => if k = flat_key "path" then some UNSET_VAL else none)
        (flat_key "path") = some UNSET_VAL ∧
    dget (update_settings id
        (fun k => if k = flat_key "path" then some UNSET_VAL else none)
        (fun k => if k = "path" then some (SVal.s "/nested") else none)
        (fun _ => none) default_settings) "path" = some (SVal.s "/nested") ∧
    SVal.s "/nested" ≠ id UNSET_VAL := by
  refine ⟨by decide, by decide, by decide⟩

/-- C9: the snapshot starts as the documented defaults over exactly the
six option keys; every load or update preserves the key set (when the
six keys are present, as they are from construction on), and an option
for which no configuration source provides a value keeps its previous
value. -/
theorem snapshot_keys_defaults_retention :
    default_settings.map Prod.fst = settings_keys ∧
    dget default_settings "verbose" = some (SVal.b false) ∧
    dget default_settings "timeout" = some (SVal.num 1) ∧
    dget default_settings "path" = some SVal.none_ ∧
    dget default_settings "log_level" = some (SVal.s "INFO") ∧
    dget default_settings "on_save" = some (SVal.b false) ∧
    dget default_settings "encoding" = some (SVal.s "utf-8") ∧
    (∀ (e : SVal → SVal) (flat nested glob : String → Option SVal)
        (cur : List (String × SVal)),
      (∀ k ∈ settings_keys, dcontains cur k = true) →
      (update_settings e flat nested glob cur).map Prod.fst =
        cur.map Prod.fst) ∧
    (∀ (e : SVal → SVal) (flat nested glob : String → Option SVal)
        (cur : List (String × SVal)) (key : String),
      key ∈ settings_keys →
      flat (flat_key key) = none → nested key = none →
      glob (global_key key) = none →
      dget (update_settings e flat nested glob cur) key = dget cur key) := by
  refine ⟨by decide, by decide, by decide, by decide, by decide, by decide,
    by decide, ?_, ?_⟩
  · intro e flat nested glob cur h
    exact keys_foldl e flat nested glob settings_keys cur h
  · intro e flat nested glob cur key hk h1 h2 h3
    refine dget_foldl_mem_none e flat nested glob settings_keys cur key hk
      (by decide) ?_
    simp [resolveKey, providedOf, h1, h2, h3, Option.orElse]

/-- C9, witness: an update with empty configuration sources keeps the
keys and the `path` default of the freshly constructed snapshot. -/
theorem snapshot_keys_defaults_retention_witness :
    (update_settings id (fun _ => none) (fun _ => none) (fun _ => none)
        default_settings).map Prod.fst = default_settings.map Prod.fst ∧
    dget (update_settings id (fun _ => none) (fun _ => none) (fun _ => none)
        default_settings) "path" = dget default_settings "path" := by
  constructor
  · exact snapshot_keys_defaults_retention.2.2.2.2.2.2.2.1 id
      (fun _ => none) (fun _ => none) (fun _ => none) default_settings
      (by decide)
  · exact snapshot_keys_defaults_retention.2.2.2.2.2.2.2.2 id
      (fun _ => none) (fun _ => none) (fun _ => none) default_settings
      "path" (by decide) rfl rfl rfl

/-! ## Lemmas for `find_package` and `patch_path` -/

theorem le_foldl_max (v : Int) (vs : List Int) : v ≤ vs.foldl max v := by
  induction vs generalizing v with
  | nil => exact le_refl v
  | cons a rest ih => exact le_trans (le_max_left v a) (ih (max v a))

theorem mem_le_foldl_max (v : Int) (vs : List Int) (x : Int) (hx : x ∈ vs) :
    x ≤ vs.foldl max v := by
  induction vs generalizing v with
  | nil => cases hx
  | cons a rest ih =>
    rcases List.mem_cons.mp hx with h | h
    · subst h
      exact le_trans (le_max_right v x) (le_foldl_max (max v x) rest)
    · exact ih (max v a) h

theorem foldl_max_mem (v : Int) (vs : List Int) :
    vs.foldl max v = v ∨ vs.foldl max v ∈ vs := by
  induction vs generalizing v with
  | nil => exact Or.inl rfl
  | cons a rest ih =>
    have hc : (a :: rest).foldl max v = rest.foldl max (max v a) := rfl
    rcases ih (max v a) with h | h
    · rcases max_choice v a with hm | hm
      · left
        rw [hc, h, hm]
      · right
        rw [hc, h, hm]
        exact List.mem_cons_self a rest
    · right
      rw [hc]
      exact List.mem_cons_of_mem a h

theorem find_package_spec (fs : FS) (root p : String)
    (h : find_package fs root "isort" = some p) :
    ∃ ver : Int, ver ∈ libVersions fs root ∧
      (∀ x ∈ libVersions fs root, x ≤ ver) ∧
      p = pjoin (pjoin (pjoin (pjoin root "lib")
        ("python3." ++ toString ver)) "site-packages") "isort" := by
  unfold find_package at h
  by_cases hdir : fs.isDir (pjoin root "lib") = false
  · rw [if_pos hdir] at h
    exact Option.noConfusion h
  · rw [if_neg hdir] at h
    cases hvs : libVersions fs root with
    | nil =>
      rw [hvs] at h
      exact Option.noConfusion h
    | cons v vs =>
      rw [hvs] at h
      have h2 :
          (if fs.isDir (pjoin (pjoin root "lib")
              ("python3." ++ toString (vs.foldl max v))) = false then none
           else if fs.isDir (pjoin (pjoin (pjoin (pjoin root "lib")
              ("python3." ++ toString (vs.foldl max v))) "site-packages")
              "isort") = true then
             some (pjoin (pjoin (pjoin (pjoin root "lib")
              ("python3." ++ toString (vs.foldl max v))) "site-packages")
              "isort")
           else none) = some p := h
      split at h2
      · exact Option.noConfusion h2
      · split at h2
        · refine ⟨vs.foldl max v, ?_, ?_, (Option.some.inj h2).symm⟩
          · rcases foldl_max_mem v vs with hm | hm
            · rw [hm]
              exact List.mem_cons_self v vs
            · exact List.mem_cons_of_mem v hm
          · intro x hx
            rcases List.mem_cons.mp hx with hh | hh
            · rw [hh]
              exact le_foldl_max v vs
            · exact mem_le_foldl_max v vs x hh
        · exact Option.noConfusion h2

theorem strContains_append_isort (y : String) :
    strContains (y ++ "isort") "isort" = true := by
  unfold strContains
  rw [decide_eq_true_eq]
  have hd : (y ++ "isort").toList = y.toList ++ "isort".toList :=
    String.data_append y "isort"
  rw [hd]
  exact List.IsSuffix.isInfix (List.suffix_append y.toList "isort".toList)

theorem strContains_pjoin_isort (a : String) :
    strContains (pjoin a "isort") "isort" = true := by
  unfold pjoin
  by_cases h1 : pyStartsWith "isort" "/" = true
  · cases h1
  · rw [if_neg h1]
    by_cases h2 : a = "" ∨ pyEndsWith a "/" = true
    · rw [if_pos h2]
      exact strContains_append_isort a
    · rw [if_neg h2]
      exact strContains_append_isort (a ++ "/")

theorem firstPkg_spec (fs : FS) (roots : List (Option String)) (p : String)
    (h : firstPkg fs roots = some p) :
    ∃ root, find_package fs root "isort" = some p := by
  induction roots with
  | nil => cases h
  | cons r rest ih =>
    cases r with
    | none => exact ih h
    | some root =>
      unfold firstPkg at h
      split at h
      · split at h
        · exact ⟨root, by rename_i heq; rw [heq]; exact congrArg some (Option.some.inj h)⟩
        · exact ih h
      · exact ih h

/-- C7, counterexample to the claim as stated: a fresh `sys.path`
`["a", "b"]` with an isort package installed under `$VIRTUAL_ENV`; the
path is patched, but the package path is inserted before the last entry
(`sys.path.insert(-1, …)`), not prepended. -/
theorem patch_path_counterexample :
    patch_path
      { isDir := fun d => (d == "V") || (d == "V/lib") ||
          (d == "V/lib/python3.9") ||
          (d == "V/lib/python3.9/site-packages/isort"),
        listdir := fun d => if d = "V/lib" then ["python3.9"] else [] }
      (fun k => if k = "VIRTUAL_ENV" then some "V" else none)
      ["a", "b"] =
      (true, ["a", "V/lib/python3.9/site-packages/isort", "b"]) ∧
    ["a", "V/lib/python3.9/site-packages/isort", "b"] ≠
      "V/lib/python3.9/site-packages/isort" :: ["a", "b"] := by
  refine ⟨by decide, by decide⟩

/-- C7, amended: executable discovery scans the virtual-environment
root's `lib/python3.N` subdirectories and selects the one with the
highest parsed version number; `patch_path` is guarded by an
already-patched check (any `sys.path` entry containing `"isort"` makes
it return immediately without change), and on success it inserts the
package path immediately before the last `sys.path` entry (not a
prepend), after which the guard makes any further call a no-op, so the
insertion happens at most once per process lifetime. -/
theorem patch_path_props (fs : FS) (env : String → Option String)
    (sysPath : List String) :
    (sysPath.any (fun q => strContains q "isort") = true →
      patch_path fs env sysPath = (true, sysPath)) ∧
    (∀ root p, find_package fs root "isort" = some p →
      ∃ ver : Int, ver ∈ libVersions fs root ∧
        (∀ x ∈ libVersions fs root, x ≤ ver) ∧
        p = pjoin (pjoin (pjoin (pjoin root "lib")
          ("python3." ++ toString ver)) "site-packages") "isort") ∧
    (∀ p, firstPkg fs (patchRoots fs env) = some p →
      sysPath.any (fun q => strContains q "isort") = false →
      patch_path fs env sysPath = (true, insertBeforeLast sysPath p) ∧
      patch_path fs env (insertBeforeLast sysPath p) =
        (true, insertBeforeLast sysPath p)) := by
  refine ⟨?_, ?_, ?_⟩
  · intro hg
    simp [patch_path, hg]
  · intro root p h
    exact find_package_spec fs root p h
  · intro p hfp hguard
    obtain ⟨root, hfind⟩ := firstPkg_spec fs (patchRoots fs env) p hfp
    obtain ⟨ver, _, _, hp⟩ := find_package_spec fs root p hfind
    have hcont : strContains p "isort" = true := by
      rw [hp]
      exact strContains_pjoin_isort _
    constructor
    · simp [patch_path, hguard, hfp]
    · have hmem : p ∈ insertBeforeLast sysPath p := by
        simp [insertBeforeLast]
      have hany : (insertBeforeLast sysPath p).any
          (fun q => strContains q "isort") = true :=
        List.any_eq_true.mpr ⟨p, hmem, hcont⟩
      simp [patch_path, hany]

/-- C7, witness for the amended theorem: the guard fires on an
already-patched path, and a concrete discovery inserts before the last
entry exactly once. -/
theorem patch_path_props_witness :
    patch_path
      { isDir := fun _ => false, listdir := fun _ => [] }
      (fun _ => none) ["x/site-packages/isort", "y"] =
      (true, ["x/site-packages/isort", "y"]) := by
  exact (patch_path_props
    { isDir := fun _ => false, listdir := fun _ => [] }
    (fun _ => none) ["x/site-packages/isort", "y"]).1 (by decide)

end Isorter
